import Mathlib

/-!
A shallow embedding of the sports-league console client (`src/console.py`)
and proofs about its query-answering core.

The embedding models:
* Python string helpers used by the dispatcher: `str.strip()`, `str.split()`,
  `str.isdigit()`, `int(...)`, and `shlex.split` (POSIX mode with
  `whitespace_split`, as `shlex.split` configures it);
* the data records (`Team`, `PlayerRec`, `MatchRec`) and the outcome of a
  `fetch_json` call on a player resource (`FetchR`): a decoded record, an
  HTTP-status error (`requests.HTTPError`, raised by `raise_for_status`),
  or a transport-level error (connection failures etc., which are *not*
  `HTTPError` and hence not caught by the `except requests.HTTPError`
  handlers in the source);
* `compute_stats`, the head-to-head counter, the roster builder
  `list_players`, and the per-line query dispatcher of `handle_queries`.

Uncaught Python exceptions are modelled with `Except Unit`.
-/

/-- Decidable equality of `Except` results, for evaluating the model on
concrete inputs. -/
instance {e a : Type} [DecidableEq e] [DecidableEq a] : DecidableEq (Except e a) :=
  fun x y =>
    match x, y with
    | .error u, .error v =>
      if h : u = v then .isTrue (by rw [h]) else .isFalse (by intro hc; cases hc; exact h rfl)
    | .error _, .ok _ => .isFalse (fun hc => Except.noConfusion hc)
    | .ok _, .error _ => .isFalse (fun hc => Except.noConfusion hc)
    | .ok u, .ok v =>
      if h : u = v then .isTrue (by rw [h]) else .isFalse (by intro hc; cases hc; exact h rfl)

/-- ASCII whitespace stripped/split by Python `str.strip()` / `str.split()`. -/
def pyIsSpace (c : Char) : Bool :=
  c = ' ' || c = '\t' || c = '\n' || c = '\r' || c = '\x0b' || c = '\x0c'

/-- Python `str.strip()` on a list of characters. -/
def pyStripL (l : List Char) : List Char :=
  ((l.dropWhile pyIsSpace).reverse.dropWhile pyIsSpace).reverse

/-- Python `str.strip()` on a string. -/
def pyStrip (s : String) : String := String.mk (pyStripL s.data)

/-- Helper for `str.split()` with no separator; `acc` is the current word,
reversed. -/
def pySplitAux : List Char → List Char → List (List Char)
  | [], [] => []
  | [], acc => [acc.reverse]
  | c :: cs, acc =>
    if pyIsSpace c then
      match acc with
      | [] => pySplitAux cs []
      | _ :: _ => acc.reverse :: pySplitAux cs []
    else pySplitAux cs (c :: acc)

/-- Python `str.split()` with no separator: splits on runs of whitespace and
never produces empty tokens. -/
def pySplitL (l : List Char) : List (List Char) := pySplitAux l []

/-- Python `str.isdigit()` (restricted to ASCII digits): nonempty and all
characters decimal digits. -/
def pyIsDigitStr (l : List Char) : Bool := !l.isEmpty && l.all (fun c => c.isDigit)

/-- Python `int(...)` on a string of decimal digits. -/
def parseNatL (l : List Char) : Nat :=
  l.foldl (fun acc c => acc * 10 + (c.toNat - 48)) 0

/-- Lexer states of `shlex.read_token` (POSIX mode, `whitespace_split`):
outside a token (`sp`, Python state `' '`), inside a word (`wd`, state `'a'`),
inside single/double quotes (`sq`/`dq`), after a backslash outside quotes
(`eA`, `escapedstate = 'a'`) or inside double quotes (`eQ`,
`escapedstate = '"'`). -/
inductive ShSt where
  | sp | wd | sq | dq | eA | eQ
deriving DecidableEq

/-- The state machine of `shlex.split` (POSIX, `whitespace_split = True`,
no comment characters).  `tok` is the current token (reversed), `q` the
`quoted` flag of the current token, `acc` the emitted tokens (reversed).
`ValueError` (\"No closing quotation\" / \"No escaped character\") is
`Except.error`. -/
def shlexAux : List Char → ShSt → List Char → Bool → List (List Char) →
    Except Unit (List (List Char))
  | [], .sp, _, _, acc => .ok acc.reverse
  | [], .wd, tok, q, acc =>
    if tok.isEmpty && !q then .ok acc.reverse else .ok ((tok.reverse :: acc)).reverse
  | [], .sq, _, _, _ => .error ()
  | [], .dq, _, _, _ => .error ()
  | [], .eA, _, _, _ => .error ()
  | [], .eQ, _, _, _ => .error ()
  | c :: cs, .sp, tok, q, acc =>
    if pyIsSpace c then shlexAux cs .sp tok q acc
    else if c = '\\' then shlexAux cs .eA tok q acc
    else if c = '\'' then shlexAux cs .sq tok true acc
    else if c = '"' then shlexAux cs .dq tok true acc
    else shlexAux cs .wd (c :: tok) q acc
  | c :: cs, .wd, tok, q, acc =>
    if pyIsSpace c then
      if tok.isEmpty && !q then .ok acc.reverse
      else shlexAux cs .sp [] false (tok.reverse :: acc)
    else if c = '\'' then shlexAux cs .sq tok true acc
    else if c = '"' then shlexAux cs .dq tok true acc
    else if c = '\\' then shlexAux cs .eA tok q acc
    else shlexAux cs .wd (c :: tok) q acc
  | c :: cs, .sq, tok, q, acc =>
    if c = '\'' then shlexAux cs .wd tok q acc
    else shlexAux cs .sq (c :: tok) q acc
  | c :: cs, .dq, tok, q, acc =>
    if c = '"' then shlexAux cs .wd tok q acc
    else if c = '\\' then shlexAux cs .eQ tok q acc
    else shlexAux cs .dq (c :: tok) q acc
  | c :: cs, .eA, tok, q, acc => shlexAux cs .wd (c :: tok) q acc
  | c :: cs, .eQ, tok, q, acc =>
    if c = '\\' || c = '"' then shlexAux cs .dq (c :: tok) q acc
    else shlexAux cs .dq (c :: '\\' :: tok) q acc

/-- `shlex.split(s)` (POSIX mode, whitespace split, comments off). -/
def shlexSplitL (l : List Char) : Except Unit (List (List Char)) :=
  shlexAux l .sp [] false []

/-- A team record as decoded from `/teams`: `{id, name, players}`. -/
structure Team where
  id : Int
  name : String
  players : List Int
deriving DecidableEq

/-- A player record as decoded from `/players/{id}`; `pl.get('name', '')`
and `pl.get('surname', '')` make a missing field the empty string. -/
structure PlayerRec where
  name : String
  surname : String
deriving DecidableEq

/-- A match record as decoded from the bulk match resource. -/
structure MatchRec where
  team1 : Int
  team2 : Int
  team1_score : Int
  team2_score : Int
deriving DecidableEq

/-- Outcome of `fetch_json` on a player resource: a decoded record, an
HTTP-status error (`requests.HTTPError`), or a transport-level failure
(any other `requests` exception, not caught by `except requests.HTTPError`). -/
inductive FetchR where
  | ok (p : PlayerRec)
  | httpError
  | transportError
deriving DecidableEq

/-- The loaded snapshot plus the live player-fetch collaborator. -/
structure Env where
  teams : List Team
  matchList : List MatchRec
  fetch : Int → FetchR

/-- The loop body of `compute_stats`, with the four mutable counters as
accumulators; finally `diff = goals_for - goals_against`. -/
def computeStatsAux (teamId : Int) : List MatchRec → Nat → Nat → Int → Int → Nat × Nat × Int
  | [], w, l, gf, ga => (w, l, gf - ga)
  | m :: ms, w, l, gf, ga =>
    if m.team1 == teamId || m.team2 == teamId then
      let f := if m.team1 == teamId then m.team1_score else m.team2_score
      let a := if m.team1 == teamId then m.team2_score else m.team1_score
      computeStatsAux teamId ms (if f > a then w + 1 else w)
        (if f < a then l + 1 else l) (gf + f) (ga + a)
    else
      computeStatsAux teamId ms w l gf ga

/-- `compute_stats(matchList, team_id)` returning `(wins, losses, diff)`. -/
def compute_stats (matchList : List MatchRec) (teamId : Int) : Nat × Nat × Int :=
  computeStatsAux teamId matchList 0 0 0 0

/-- Lookup in `team_map = {t['name']: t['id'] for t in teams}`; a later team
with the same name overrides an earlier one, so the lookup finds the last. -/
def teamMapFind (teams : List Team) (name : String) : Option Int :=
  (teams.reverse.find? (fun t => t.name == name)).map (fun t => t.id)

/-- Lookup in `player_team` (player id → id of the last team listing it). -/
def playerTeamFind (teams : List Team) (pid : Int) : Option Int :=
  (teams.reverse.find? (fun t => t.players.contains pid)).map (fun t => t.id)

/-- The counting loop of the `versus?` branch: the games whose side pair is
`(t1, t2)` or `(t2, t1)`. -/
def countMatches (matchList : List MatchRec) (t1 t2 : Int) : Nat :=
  matchList.countP (fun m =>
    (m.team1 == t1 && m.team2 == t2) || (m.team1 == t2 && m.team2 == t1))

/-- `f"{d:+d}"`: sign-carrying decimal rendering of an integer. -/
def fmtSigned (d : Int) : String :=
  if d < 0 then toString d else "+" ++ toString d

/-- Full display name: `' '.join([p for p in parts if p])` over the stripped
name and surname. -/
def fullName (p : PlayerRec) : String :=
  String.intercalate " " (([pyStrip p.name, pyStrip p.surname]).filter (fun s => !(s == "")))

/-- The per-player fetch loop of `list_players`: an `HTTPError` skips the
player, any other fetch exception propagates, an empty full name is not
collected. -/
def collectNames (fetch : Int → FetchR) : List Int → Except Unit (List String)
  | [] => .ok []
  | pid :: rest =>
    match fetch pid with
    | .transportError => .error ()
    | .httpError => collectNames fetch rest
    | .ok p =>
      let full := fullName p
      if full == "" then collectNames fetch rest
      else
        match collectNames fetch rest with
        | .error er => .error er
        | .ok ns => .ok (full :: ns)

/-- The deduplicated set of player ids referenced by the teams
(`player_ids = set()` filled from every team's `players`). -/
def playerIds (teams : List Team) : List Int :=
  (teams.flatMap (fun t => t.players)).dedup

/-- The names printed by `list_players`: `sorted(set(names))`.  Python sorts
strings lexicographically by code point, which is exactly `String.le`; the
ascending sorted arrangement of the deduplicated multiset is canonical, so a
structural insertion sort is a faithful model of `sorted`. -/
def rosterNames (fetch : Int → FetchR) (teams : List Team) : Except Unit (List String) :=
  match collectNames fetch (playerIds teams) with
  | .error er => .error er
  | .ok names => .ok ((names.dedup).insertionSort (fun a b => a ≤ b))

/-- The `stats?` branch of `handle_queries`, applied to the stripped
remainder after the command. `shlex.split` errors and the `[0]` index
error on an empty token list are both caught by `except Exception`. -/
def statsCase (env : Env) (rest : List Char) : List String × List String :=
  match shlexSplitL rest with
  | .error _ => (["0 0 0"], [])
  | .ok [] => (["0 0 0"], [])
  | .ok (tok :: _) =>
    match teamMapFind env.teams (String.mk tok) with
    | none => (["0 0 0"], [])
    | some tid =>
      let r := compute_stats env.matchList tid
      ([toString r.1 ++ " " ++ toString r.2.1 ++ " " ++ fmtSigned r.2.2], [])

/-- The `versus?` branch of `handle_queries`, applied to the stripped
remainder after the command. Only `requests.HTTPError` is caught around the
existence fetches; a transport error propagates (`Except.error`). -/
def versusCase (env : Env) (rest : List Char) : Except Unit (List String × List String) :=
  match pySplitL rest with
  | [a, b] =>
    if pyIsDigitStr a && pyIsDigitStr b then
      let p1 : Int := (parseNatL a : Nat)
      let p2 : Int := (parseNatL b : Nat)
      match env.fetch p1 with
      | .transportError => .error ()
      | .httpError => .ok (["0"], [])
      | .ok _ =>
        match env.fetch p2 with
        | .transportError => .error ()
        | .httpError => .ok (["0"], [])
        | .ok _ =>
          match playerTeamFind env.teams p1, playerTeamFind env.teams p2 with
          | some t1, some t2 => .ok ([toString (countMatches env.matchList t1 t2)], [])
          | _, _ => .ok (["0"], [])
    else .ok (["0"], [])
  | _ => .ok (["0"], [])

/-- One iteration of the `for line in sys.stdin` loop of `handle_queries`:
the produced (stdout lines, stderr lines), or an uncaught exception. -/
def handleLine (env : Env) (rawLine : String) : Except Unit (List String × List String) :=
  let line := pyStripL rawLine.data
  if line.isEmpty then .ok ([], [])
  else if List.isPrefixOf ("stats?".data) line then .ok (statsCase env (pyStripL (line.drop 6)))
  else if List.isPrefixOf ("versus?".data) line then versusCase env (pyStripL (line.drop 7))
  else .ok ([], ["Unrecognized query"])

/-- The whole stdin loop of `handle_queries` over a list of input lines,
concatenating the stdout and stderr lines in order. -/
def handle_queries (env : Env) : List String → Except Unit (List String × List String)
  | [] => .ok ([], [])
  | l :: ls =>
    match handleLine env l with
    | .error er => .error er
    | .ok (o, e) =>
      match handle_queries env ls with
      | .error er => .error er
      | .ok (os, es) => .ok (o ++ os, e ++ es)

/-- The observable output of `main` after startup data is loaded: the roster
names printed by `list_players` followed by the query answers. -/
def mainRun (env : Env) (input : List String) : Except Unit (List String × List String) :=
  match rosterNames env.fetch env.teams with
  | .error er => .error er
  | .ok roster =>
    match handle_queries env input with
    | .error er => .error er
    | .ok (os, es) => .ok (roster ++ os, es)

/-- The team occupies one side of the match (the membership test of the
`compute_stats` loop). -/
def participatesB (m : MatchRec) (tid : Int) : Bool :=
  m.team1 == tid || m.team2 == tid

/-- The participating team's own score, with the side selection performed by
the `compute_stats` loop (`team1` checked first). -/
def goalsFor (m : MatchRec) (tid : Int) : Int :=
  if m.team1 == tid then m.team1_score else m.team2_score

/-- The opponent's score under the same side selection. -/
def goalsAgainst (m : MatchRec) (tid : Int) : Int :=
  if m.team1 == tid then m.team2_score else m.team1_score

/-- The name one player id contributes to the roster list: `none` when the
fetch fails with an `HTTPError` or the full name is empty. -/
def nameOf (fetch : Int → FetchR) (pid : Int) : Option String :=
  match fetch pid with
  | .ok p => if fullName p == "" then none else some (fullName p)
  | .httpError => none
  | .transportError => none

/-- A concrete environment whose player fetches all fail with a transport
error (e.g. a connection failure, which is not a `requests.HTTPError`). -/
def envTransport : Env :=
  { teams := [⟨1, "Falcons", [7]⟩],
    matchList := [],
    fetch := fun _ => .transportError }

/-- A concrete environment with two teams, two matches, and one player id
(999) whose fetch fails with an HTTP-status error; no transport errors. -/
def envDemo : Env :=
  { teams := [⟨1, "Falcons", [10]⟩, ⟨2, "Hawks", [11]⟩],
    matchList := [⟨1, 2, 3, 1⟩, ⟨1, 2, 0, 0⟩],
    fetch := fun pid =>
      if pid == 999 then .httpError
      else if pid == 10 then .ok ⟨"Ann", "Lee"⟩
      else .ok ⟨"John", "Doe"⟩ }

/-- The loop of `compute_stats` counts wins and losses over the matches the
team participates in and accumulates both goal totals. -/
theorem computeStatsAux_eq (tid : Int) (ms : List MatchRec) (w l : Nat) (gf ga : Int) :
    computeStatsAux tid ms w l gf ga =
      (w + (ms.filter (fun m => participatesB m tid)).countP
            (fun m => decide (goalsAgainst m tid < goalsFor m tid)),
       l + (ms.filter (fun m => participatesB m tid)).countP
            (fun m => decide (goalsFor m tid < goalsAgainst m tid)),
       (gf + ((ms.filter (fun m => participatesB m tid)).map (fun m => goalsFor m tid)).sum) -
         (ga + ((ms.filter (fun m => participatesB m tid)).map (fun m => goalsAgainst m tid)).sum)) := by
  induction ms generalizing w l gf ga with
  | nil => simp [computeStatsAux]
  | cons m ms ih =>
    have hcond : (m.team1 == tid || m.team2 == tid) = participatesB m tid := rfl
    rw [computeStatsAux, hcond]
    by_cases hp : participatesB m tid
    · rw [if_pos hp, ih]
      have hf : (if m.team1 == tid then m.team1_score else m.team2_score) = goalsFor m tid := rfl
      have ha : (if m.team1 == tid then m.team2_score else m.team1_score) = goalsAgainst m tid := rfl
      rw [hf, ha]
      have hfil : List.filter (fun m => participatesB m tid) (m :: ms)
          = m :: List.filter (fun m => participatesB m tid) ms := by
        simp [List.filter_cons, hp]
      rw [hfil]
      simp only [List.countP_cons, List.map_cons, List.sum_cons, Prod.mk.injEq]
      refine ⟨?_, ?_, ?_⟩
      · by_cases h1 : goalsAgainst m tid < goalsFor m tid
        · rw [if_pos h1, if_pos (decide_eq_true h1)]
          omega
        · rw [if_neg h1, if_neg (fun hc => h1 (of_decide_eq_true hc))]
          omega
      · by_cases h2 : goalsFor m tid < goalsAgainst m tid
        · rw [if_pos h2, if_pos (decide_eq_true h2)]
          omega
        · rw [if_neg h2, if_neg (fun hc => h2 (of_decide_eq_true hc))]
          omega
      · omega
    · rw [if_neg hp, ih]
      have hfil : List.filter (fun m => participatesB m tid) (m :: ms)
          = List.filter (fun m => participatesB m tid) ms := by
        simp [List.filter_cons, hp]
      rw [hfil]

/-- Summing per-element differences equals the difference of the sums. -/
theorem sum_map_sub_int {α : Type} (f g : α → Int) (L : List α) :
    (L.map (fun x => f x - g x)).sum = (L.map f).sum - (L.map g).sum := by
  induction L with
  | nil => simp
  | cons a L ih => simp only [List.map_cons, List.sum_cons, ih]; ring

/-- Each participating match is exactly one of win, loss, draw. -/
theorem countP_trichotomy (L : List MatchRec) (tid : Int) :
    L.countP (fun m => decide (goalsAgainst m tid < goalsFor m tid)) +
      L.countP (fun m => decide (goalsFor m tid < goalsAgainst m tid)) +
      L.countP (fun m => decide (goalsFor m tid = goalsAgainst m tid)) = L.length := by
  induction L with
  | nil => simp
  | cons m L ih =>
    simp only [List.countP_cons, List.length_cons]
    rcases lt_trichotomy (goalsFor m tid) (goalsAgainst m tid) with h | h | h
    · have h1 : ¬ goalsAgainst m tid < goalsFor m tid := lt_asymm h
      have h3 : goalsFor m tid ≠ goalsAgainst m tid := ne_of_lt h
      simp only [h, h1, h3, decide_eq_true_eq]
      simp [h, h1, h3]
      omega
    · simp [h, lt_irrefl]
      omega
    · have h1 : ¬ goalsFor m tid < goalsAgainst m tid := lt_asymm h
      have h3 : goalsFor m tid ≠ goalsAgainst m tid := ne_of_gt h
      simp [h, h1, h3]
      omega

/-- C2: `compute_stats` returns the number of participating matches won
(own score strictly greater), the number lost (own score strictly smaller,
ties counting for neither), and the sum of per-match score differences over
all matches the team participates in; a team participating in no match gets
`(0, 0, 0)`. -/
theorem c2_compute_stats (ms : List MatchRec) (tid : Int) :
    compute_stats ms tid =
      ((ms.filter (fun m => participatesB m tid)).countP
          (fun m => decide (goalsAgainst m tid < goalsFor m tid)),
       (ms.filter (fun m => participatesB m tid)).countP
          (fun m => decide (goalsFor m tid < goalsAgainst m tid)),
       ((ms.filter (fun m => participatesB m tid)).map
          (fun m => goalsFor m tid - goalsAgainst m tid)).sum) ∧
    ((∀ m ∈ ms, participatesB m tid = false) → compute_stats ms tid = (0, 0, 0)) := by
  have h := computeStatsAux_eq tid ms 0 0 0 0
  constructor
  · rw [compute_stats, h]
    simp [sum_map_sub_int]
  · intro hnone
    rw [compute_stats, h]
    have hfil : List.filter (fun m => participatesB m tid) ms = [] := by
      rw [List.filter_eq_nil_iff]
      intro a ha
      simp [hnone a ha]
    simp [hfil]

/-- C2 witness: a team id occurring in no match gets `(0, 0, 0)`. -/
theorem c2_compute_stats_witness :
    compute_stats [⟨1, 2, 3, 1⟩] 5 = (0, 0, 0) :=
  (c2_compute_stats [⟨1, 2, 3, 1⟩] 5).2 (by decide)

/-- C7: wins plus losses is at most the number of matches the team
participates in, the difference being exactly the number of drawn
participating matches. -/
theorem c7_wins_losses_bound (ms : List MatchRec) (tid : Int) :
    (compute_stats ms tid).1 + (compute_stats ms tid).2.1 ≤
      ms.countP (fun m => participatesB m tid) ∧
    (compute_stats ms tid).1 + (compute_stats ms tid).2.1 +
      (ms.filter (fun m => participatesB m tid)).countP
        (fun m => decide (goalsFor m tid = goalsAgainst m tid)) =
      ms.countP (fun m => participatesB m tid) := by
  have h := computeStatsAux_eq tid ms 0 0 0 0
  have htri := countP_trichotomy (ms.filter (fun m => participatesB m tid)) tid
  have hlen : ms.countP (fun m => participatesB m tid) =
      (ms.filter (fun m => participatesB m tid)).length := by
    rw [List.countP_eq_length_filter]
  simp only [compute_stats, h, Nat.zero_add]
  constructor <;> omega

/-- C6: the head-to-head count is order-independent in the two team ids, and
with both ids equal it counts (once each) exactly the matches where both
sides are that id. -/
theorem c6_countMatches (ms : List MatchRec) (a b : Int) :
    countMatches ms a b = countMatches ms b a ∧
    countMatches ms a a = ms.countP (fun m => m.team1 == a && m.team2 == a) := by
  constructor
  · unfold countMatches
    congr 1
    funext m
    rw [Bool.or_comm]
  · unfold countMatches
    congr 1
    funext m
    rw [Bool.or_self]

/-- The names collected by the `list_players` loop are exactly the
`nameOf`-images of the processed ids (when no transport error aborts it). -/
theorem collectNames_ok_eq (fetch : Int → FetchR) (pids : List Int) (ns : List String)
    (h : collectNames fetch pids = .ok ns) :
    ns = pids.filterMap (nameOf fetch) := by
  induction pids generalizing ns with
  | nil =>
    simp only [collectNames] at h
    cases h
    simp
  | cons pid rest ih =>
    rw [List.filterMap_cons]
    cases hf : fetch pid with
    | transportError =>
      simp only [collectNames, hf] at h
      exact Except.noConfusion h
    | httpError =>
      simp only [collectNames, hf] at h
      simp only [nameOf, hf]
      exact ih ns h
    | ok p =>
      simp only [collectNames, hf] at h
      by_cases he : fullName p = ""
      · rw [if_pos (by simp [he])] at h
        simp only [nameOf, hf, if_pos (by simp [he] : (fullName p == "") = true)]
        exact ih ns h
      · rw [if_neg (by simp [he])] at h
        simp only [nameOf, hf, if_neg (by simp [he] : ¬ (fullName p == "") = true)]
        cases hrec : collectNames fetch rest with
        | error er => rw [hrec] at h; cases h
        | ok ns0 =>
          rw [hrec] at h
          cases h
          simp only [List.cons.injEq, true_and]
          exact ih ns0 hrec

/-- C5: when roster building succeeds, the emitted name list contains the
full name (trimmed name, single space, trimmed surname, empty part omitted)
of every successfully fetched, non-empty-named player; it contains only such
names and never an empty one; it is deduplicated and strictly ascending in
code-point order; and the whole list precedes every query answer in the
program's output. -/
theorem c5_roster (env : Env) (ns : List String) (input : List String)
    (h : rosterNames env.fetch env.teams = .ok ns) :
    (∀ pid p, pid ∈ playerIds env.teams → env.fetch pid = .ok p → fullName p ≠ "" →
      fullName p ∈ ns) ∧
    (∀ n ∈ ns, n ≠ "" ∧ ∃ pid p, pid ∈ playerIds env.teams ∧ env.fetch pid = .ok p ∧
      n = fullName p) ∧
    ns.Pairwise (fun a b => a < b) ∧
    (∀ out err, mainRun env input = .ok (out, err) →
      ∃ qout, out = ns ++ qout ∧ handle_queries env input = .ok (qout, err)) := by
  have h0 := h
  rw [rosterNames] at h
  cases hc : collectNames env.fetch (playerIds env.teams) with
  | error er =>
    rw [hc] at h
    exact Except.noConfusion h
  | ok names =>
    rw [hc] at h
    have hns : ns = (names.dedup).insertionSort (fun a b => a ≤ b) := by
      cases h
      rfl
    have hmem : ∀ n, n ∈ ns ↔ n ∈ names := by
      intro n
      rw [hns, List.mem_insertionSort, List.mem_dedup]
    have hnames := collectNames_ok_eq env.fetch (playerIds env.teams) names hc
    refine ⟨?_, ?_, ?_, ?_⟩
    · intro pid p hpid hf he
      rw [hmem, hnames]
      refine List.mem_filterMap.mpr ⟨pid, hpid, ?_⟩
      simp [nameOf, hf, he]
    · intro n hn
      rw [hmem, hnames] at hn
      obtain ⟨pid, hpid, hname⟩ := List.mem_filterMap.mp hn
      cases hf : env.fetch pid with
      | transportError =>
        simp only [nameOf, hf] at hname
        exact Option.noConfusion hname
      | httpError =>
        simp only [nameOf, hf] at hname
        exact Option.noConfusion hname
      | ok p =>
        simp only [nameOf, hf] at hname
        by_cases he : fullName p == ""
        · rw [if_pos he] at hname
          exact Option.noConfusion hname
        · rw [if_neg he] at hname
          have heq : fullName p = n := by
            cases hname
            rfl
          refine ⟨?_, pid, p, hpid, hf, heq.symm⟩
          rw [← heq]
          simpa using he
    · have hsorted : ((names.dedup).insertionSort (fun a b => a ≤ b)).Pairwise
          (fun a b : String => a ≤ b) :=
        List.sorted_insertionSort _ _
      have hnodup : ((names.dedup).insertionSort (fun a b => a ≤ b)).Nodup :=
        (List.perm_insertionSort _ _).nodup_iff.mpr (List.nodup_dedup names)
      rw [hns]
      exact List.Sorted.lt_of_le hsorted hnodup
    · intro out err hm
      rw [mainRun, h0] at hm
      cases hq : handle_queries env input with
      | error er =>
        rw [hq] at hm
        exact Except.noConfusion hm
      | ok pr =>
        obtain ⟨qo, qe⟩ := pr
        rw [hq] at hm
        have hp : (ns ++ qo, qe) = (out, err) := by
          cases hm
          rfl
        have h1 : ns ++ qo = out := congrArg Prod.fst hp
        have h2 : qe = err := congrArg Prod.snd hp
        exact ⟨qo, h1.symm, by rw [← h2]⟩

/-- C5 witness: on a concrete snapshot the roster list is the sorted,
deduplicated full-name list, contains the fetched player's name, and is
strictly ascending. -/
theorem c5_roster_witness :
    rosterNames envDemo.fetch envDemo.teams = .ok ["Ann Lee", "John Doe"] ∧
    "Ann Lee" ∈ ["Ann Lee", "John Doe"] ∧
    (["Ann Lee", "John Doe"] : List String).Pairwise (fun a b => a < b) := by
  have hcol : collectNames envDemo.fetch (playerIds envDemo.teams) =
      .ok ["Ann Lee", "John Doe"] := by decide
  have hded : (["Ann Lee", "John Doe"] : List String).dedup = ["Ann Lee", "John Doe"] := by
    decide
  have hle : ("Ann Lee" : String) ≤ "John Doe" := by
    rw [String.le_iff_toList_le]
    decide
  have hr : rosterNames envDemo.fetch envDemo.teams = .ok ["Ann Lee", "John Doe"] := by
    rw [rosterNames, hcol]
    show Except.ok (((["Ann Lee", "John Doe"] : List String).dedup).insertionSort
      (fun a b => a ≤ b)) = Except.ok ["Ann Lee", "John Doe"]
    rw [hded]
    simp only [List.insertionSort, List.orderedInsert]
    simp [hle]
  have hall := c5_roster envDemo ["Ann Lee", "John Doe"] [] hr
  exact ⟨hr, hall.1 10 ⟨"Ann", "Lee"⟩ (by decide) (by rfl) (by decide), hall.2.2.1⟩

/-- A nonempty pattern can only be a prefix of a nonempty list. -/
theorem isEmpty_false_of_isPrefixOf (p t : List Char) (hp : p ≠ [])
    (h : List.isPrefixOf p t = true) : t.isEmpty = false := by
  cases p with
  | nil => exact absurd rfl hp
  | cons a p' =>
    cases t with
    | nil => simp [List.isPrefixOf] at h
    | cons b t' => rfl

/-- A line that starts with `versus?` does not start with `stats?`. -/
theorem stats_isPrefixOf_false_of_versus (t : List Char)
    (h : List.isPrefixOf ("versus?".data) t = true) :
    List.isPrefixOf ("stats?".data) t = false := by
  cases t with
  | nil => exact absurd h (by decide)
  | cons c t' =>
    have hc : ('v' == c) = true := by
      have h' := h
      simp only [show ("versus?".data) = 'v' :: "ersus?".data from rfl, List.isPrefixOf,
        Bool.and_eq_true] at h'
      exact h'.1
    have hcv : c = 'v' := (beq_iff_eq.mp hc).symm
    subst hcv
    simp only [show ("stats?".data) = 's' :: "tats?".data from rfl, List.isPrefixOf]
    rw [show ('s' == 'v') = false from rfl, Bool.false_and]

/-- C3: a `stats?` query prints the sentinel `0 0 0` when tokenization of the
remainder fails or the first token names no team in the index, and otherwise
prints wins, losses, and the goal differential, the latter always rendered
with an explicit leading sign (`+0` for zero). -/
theorem c3_stats_query (env : Env) (rest : List Char) :
    (shlexSplitL rest = .error () → statsCase env rest = (["0 0 0"], [])) ∧
    (∀ tok toks, shlexSplitL rest = .ok (tok :: toks) →
      teamMapFind env.teams (String.mk tok) = none → statsCase env rest = (["0 0 0"], [])) ∧
    (∀ tok toks tid, shlexSplitL rest = .ok (tok :: toks) →
      teamMapFind env.teams (String.mk tok) = some tid →
      statsCase env rest =
        ([toString (compute_stats env.matchList tid).1 ++ " " ++
          toString (compute_stats env.matchList tid).2.1 ++ " " ++
          fmtSigned (compute_stats env.matchList tid).2.2], [])) ∧
    (∀ d : Int, (0 ≤ d → fmtSigned d = "+" ++ toString d) ∧
      (d < 0 → ∃ s, fmtSigned d = "-" ++ s)) ∧
    fmtSigned 0 = "+0" := by
  refine ⟨?_, ?_, ?_, ?_, ?_⟩
  · intro h
    simp only [statsCase, h]
  · intro tok toks hs hm
    simp only [statsCase, hs, hm]
  · intro tok toks tid hs hm
    simp only [statsCase, hs, hm]
  · intro d
    constructor
    · intro h0
      rw [fmtSigned, if_neg (not_lt.mpr h0)]
    · intro hneg
      rw [fmtSigned, if_pos hneg]
      cases d with
      | ofNat n => exact absurd hneg (by simp)
      | negSucc n => exact ⟨Nat.repr (n + 1), rfl⟩
  · rfl

/-- C3 witness: a resolvable team name prints signed stats, a tokenization
failure prints the sentinel. -/
theorem c3_stats_query_witness :
    statsCase envDemo ("Falcons".data) = (["1 0 +2"], []) ∧
    statsCase envDemo ("\"Falcons".data) = (["0 0 0"], []) := by
  constructor
  · have h := (c3_stats_query envDemo ("Falcons".data)).2.2.1 ("Falcons".data) [] 1
      (by decide) (by decide)
    rw [h]
    decide
  · exact (c3_stats_query envDemo ("\"Falcons".data)).1 (by decide)

/-- C9: dispatch is by raw prefix with no separating space: a non-blank line
whose stripped text begins with the six characters of `stats?` is handled by
the stats branch on the stripped remainder after them, and one beginning
with the seven characters of `versus?` by the versus branch likewise. -/
theorem c9_dispatch (env : Env) (line : String) :
    (List.isPrefixOf ("stats?".data) (pyStripL line.data) = true →
      handleLine env line = .ok (statsCase env (pyStripL ((pyStripL line.data).drop 6)))) ∧
    (List.isPrefixOf ("versus?".data) (pyStripL line.data) = true →
      handleLine env line = versusCase env (pyStripL ((pyStripL line.data).drop 7))) := by
  constructor
  · intro hp
    have hne := isEmpty_false_of_isPrefixOf _ _ (by decide) hp
    simp [handleLine, hne, hp]
  · intro hp
    have hne := isEmpty_false_of_isPrefixOf _ _ (by decide) hp
    have hs := stats_isPrefixOf_false_of_versus _ hp
    simp [handleLine, hne, hs, hp]

/-- C9 witness: `stats?Falcons` and `versus?10 11` (no space after the
command word) are dispatched to the two query branches. -/
theorem c9_dispatch_witness :
    handleLine envDemo "stats?Falcons" = .ok (["1 0 +2"], []) ∧
    handleLine envDemo "versus?10 11" = .ok (["2"], []) := by
  constructor
  · have h := (c9_dispatch envDemo "stats?Falcons").1 (by decide)
    rw [h]
    decide
  · have h := (c9_dispatch envDemo "versus?10 11").2 (by decide)
    rw [h]
    decide

/-- C8: a blank line produces no output on either stream and the loop goes
on; a non-blank line matching neither command prefix writes exactly one
diagnostic line to the error stream, nothing to standard output, and the
loop goes on. -/
theorem c8_blank_unrecognized (env : Env) (line : String) (ls : List String) :
    (pyStripL line.data = [] →
      handleLine env line = .ok ([], []) ∧
      handle_queries env (line :: ls) = handle_queries env ls) ∧
    (pyStripL line.data ≠ [] →
      List.isPrefixOf ("stats?".data) (pyStripL line.data) = false →
      List.isPrefixOf ("versus?".data) (pyStripL line.data) = false →
      handleLine env line = .ok ([], ["Unrecognized query"]) ∧
      handle_queries env (line :: ls) =
        (handle_queries env ls).map (fun pr => (pr.1, "Unrecognized query" :: pr.2))) := by
  constructor
  · intro hb
    have h1 : handleLine env line = .ok ([], []) := by
      simp [handleLine, hb]
    refine ⟨h1, ?_⟩
    rw [handle_queries, h1]
    cases hq : handle_queries env ls with
    | error er => rfl
    | ok pr =>
      cases pr
      rfl
  · intro hnb hs hv
    have hne : (pyStripL line.data).isEmpty = false := by
      cases hpy : pyStripL line.data with
      | nil => exact absurd hpy hnb
      | cons c t => rfl
    have h1 : handleLine env line = .ok ([], ["Unrecognized query"]) := by
      simp [handleLine, hne, hs, hv]
    refine ⟨h1, ?_⟩
    rw [handle_queries, h1]
    cases hq : handle_queries env ls with
    | error er => rfl
    | ok pr =>
      cases pr
      rfl

/-- C8 witness: a whitespace-only line is silent, `foo? bar` gets one
diagnostic on the error stream and nothing on standard output. -/
theorem c8_blank_unrecognized_witness :
    handleLine envDemo "   " = .ok ([], []) ∧
    handleLine envDemo "foo? bar" = .ok ([], ["Unrecognized query"]) :=
  ⟨((c8_blank_unrecognized envDemo "   " []).1 (by decide)).1,
   ((c8_blank_unrecognized envDemo "foo? bar" []).2 (by decide) (by decide) (by decide)).1⟩

/-- C10: a `stats?` line whose remainder tokenizes to zero tokens prints the
sentinel `0 0 0` (the `[0]` lookup raises `IndexError`, caught by the same
`except` as a tokenization failure) and the loop continues. -/
theorem c10_empty_tokens (env : Env) (line : String) (ls : List String)
    (hp : List.isPrefixOf ("stats?".data) (pyStripL line.data) = true)
    (hz : shlexSplitL (pyStripL ((pyStripL line.data).drop 6)) = .ok []) :
    handleLine env line = .ok (["0 0 0"], []) ∧
    handle_queries env (line :: ls) =
      (handle_queries env ls).map (fun pr => ("0 0 0" :: pr.1, pr.2)) := by
  have hne := isEmpty_false_of_isPrefixOf _ _ (by decide) hp
  have h1 : handleLine env line = .ok (["0 0 0"], []) := by
    simp only [handleLine, hne, hp]
    simp [statsCase, hz]
  refine ⟨h1, ?_⟩
  rw [handle_queries, h1]
  cases hq : handle_queries env ls with
  | error er => rfl
  | ok pr =>
    cases pr
    rfl

/-- C10 witness: the bare line `stats?` prints `0 0 0` and processing goes
on to the end of input. -/
theorem c10_empty_tokens_witness :
    handleLine envDemo "stats?" = .ok (["0 0 0"], []) ∧
    handle_queries envDemo ["stats?"] = .ok (["0 0 0"], []) := by
  have h := c10_empty_tokens envDemo "stats?" [] (by decide) (by decide)
  refine ⟨h.1, ?_⟩
  rw [h.2]
  rfl

/-- The roster fetch loop cannot raise when no processed id fails with a
transport error. -/
theorem collectNames_ok_of_no_transport (fetch : Int → FetchR) (pids : List Int)
    (h : ∀ pid ∈ pids, fetch pid ≠ FetchR.transportError) :
    ∃ ns, collectNames fetch pids = .ok ns := by
  induction pids with
  | nil => exact ⟨[], rfl⟩
  | cons pid rest ih =>
    obtain ⟨ns, hns⟩ := ih (fun p hp => h p (List.mem_cons_of_mem _ hp))
    cases hf : fetch pid with
    | transportError => exact absurd hf (h pid (List.mem_cons_self _ _))
    | httpError =>
      refine ⟨ns, ?_⟩
      simp only [collectNames, hf]
      exact hns
    | ok p =>
      by_cases he : (fullName p == "") = true
      · refine ⟨ns, ?_⟩
        simp only [collectNames, hf]
        rw [if_pos he]
        exact hns
      · refine ⟨fullName p :: ns, ?_⟩
        simp only [collectNames, hf]
        rw [if_neg he, hns]

/-- The `versus?` branch cannot raise when no fetch returns a transport
error. -/
theorem versusCase_ok_of_no_transport (env : Env) (rest : List Char)
    (hnt : ∀ pid, env.fetch pid ≠ FetchR.transportError) :
    ∃ o e, versusCase env rest = .ok (o, e) := by
  rcases hsp : pySplitL rest with _ | ⟨a, _ | ⟨b, _ | ⟨c, t⟩⟩⟩
  · exact ⟨["0"], [], by simp [versusCase, hsp]⟩
  · exact ⟨["0"], [], by simp [versusCase, hsp]⟩
  · by_cases hd : (pyIsDigitStr a && pyIsDigitStr b) = true
    · cases hf1 : env.fetch ((parseNatL a : Nat) : Int) with
      | transportError => exact absurd hf1 (hnt _)
      | httpError => exact ⟨["0"], [], by simp [versusCase, hsp, hd, hf1]⟩
      | ok p =>
        cases hf2 : env.fetch ((parseNatL b : Nat) : Int) with
        | transportError => exact absurd hf2 (hnt _)
        | httpError => exact ⟨["0"], [], by simp [versusCase, hsp, hd, hf1, hf2]⟩
        | ok q =>
          cases hp1 : playerTeamFind env.teams ((parseNatL a : Nat) : Int) with
          | none =>
            exact ⟨["0"], [], by
              cases hp2 : playerTeamFind env.teams ((parseNatL b : Nat) : Int) <;>
                simp [versusCase, hsp, hd, hf1, hf2, hp1, hp2]⟩
          | some t1 =>
            cases hp2 : playerTeamFind env.teams ((parseNatL b : Nat) : Int) with
            | none => exact ⟨["0"], [], by simp [versusCase, hsp, hd, hf1, hf2, hp1, hp2]⟩
            | some t2 =>
              exact ⟨[toString (countMatches env.matchList t1 t2)], [], by
                simp [versusCase, hsp, hd, hf1, hf2, hp1, hp2]⟩
    · exact ⟨["0"], [], by simp [versusCase, hsp, hd]⟩
  · exact ⟨["0"], [], by simp [versusCase, hsp]⟩

/-- No single line of query handling can raise when no fetch returns a
transport error. -/
theorem handleLine_ok_of_no_transport (env : Env) (line : String)
    (hnt : ∀ pid, env.fetch pid ≠ FetchR.transportError) :
    ∃ o e, handleLine env line = .ok (o, e) := by
  by_cases hb : (pyStripL line.data).isEmpty = true
  · exact ⟨[], [], by simp [handleLine, hb]⟩
  · by_cases hs : List.isPrefixOf ("stats?".data) (pyStripL line.data) = true
    · refine ⟨(statsCase env (pyStripL ((pyStripL line.data).drop 6))).1,
        (statsCase env (pyStripL ((pyStripL line.data).drop 6))).2, ?_⟩
      simp [handleLine, hb, hs]
    · by_cases hv : List.isPrefixOf ("versus?".data) (pyStripL line.data) = true
      · obtain ⟨o, e, ho⟩ :=
          versusCase_ok_of_no_transport env (pyStripL ((pyStripL line.data).drop 7)) hnt
        exact ⟨o, e, by simp [handleLine, hb, hs, hv, ho]⟩
      · exact ⟨[], ["Unrecognized query"], by simp [handleLine, hb, hs, hv]⟩

/-- The whole query loop cannot raise when no fetch returns a transport
error. -/
theorem handle_queries_ok_of_no_transport (env : Env) (input : List String)
    (hnt : ∀ pid, env.fetch pid ≠ FetchR.transportError) :
    ∃ os es, handle_queries env input = .ok (os, es) := by
  induction input with
  | nil => exact ⟨[], [], rfl⟩
  | cons line ls ih =>
    obtain ⟨os, es, hq⟩ := ih
    obtain ⟨o, e, hl⟩ := handleLine_ok_of_no_transport env line hnt
    exact ⟨o ++ os, e ++ es, by rw [handle_queries, hl, hq]⟩

/-- C1 counterexample: with every player fetch failing through a transport
(non-HTTP-status) error, a `versus?` query raises out of the per-line loop
instead of printing `0`, and roster building raises instead of skipping the
failing player. -/
theorem c1_counterexample :
    handleLine envTransport "versus? 1 2" = .error () ∧
    rosterNames envTransport.fetch envTransport.teams = .error () := by
  constructor
  · decide
  · decide

/-- C1 amended: only HTTP-status fetch failures are recovered.  When no
fetch fails with a transport (non-HTTP-status) error, roster building
returns normally and no exception escapes the query loop; a fetch failing
with an HTTP-status error during `versus?` resolution prints the `0` line.
A transport failure itself propagates (see the counterexample). -/
theorem c1_error_recovery (env : Env) (input : List String)
    (hnt : ∀ pid, env.fetch pid ≠ FetchR.transportError) :
    (∃ ns, rosterNames env.fetch env.teams = .ok ns) ∧
    (∃ os es, handle_queries env input = .ok (os, es)) ∧
    (∀ a b rest, pySplitL rest = [a, b] → pyIsDigitStr a = true → pyIsDigitStr b = true →
      env.fetch ((parseNatL a : Nat) : Int) = .httpError →
      versusCase env rest = .ok (["0"], [])) := by
  refine ⟨?_, handle_queries_ok_of_no_transport env input hnt, ?_⟩
  · obtain ⟨ns, hc⟩ := collectNames_ok_of_no_transport env.fetch (playerIds env.teams)
      (fun pid _ => hnt pid)
    exact ⟨(ns.dedup).insertionSort (fun a b => a ≤ b), by rw [rosterNames, hc]⟩
  · intro a b rest hsp hda hdb hfa
    simp [versusCase, hsp, hda, hdb, hfa]

/-- C1 witness: on a concrete snapshot with one HTTP-failing player id and
no transport errors, roster building and the query loop return normally. -/
theorem c1_error_recovery_witness :
    (∃ ns, rosterNames envDemo.fetch envDemo.teams = .ok ns) ∧
    (∃ os es, handle_queries envDemo ["versus? 10 999"] = .ok (os, es)) ∧
    versusCase envDemo ("999 10".data) = .ok (["0"], []) := by
  have hnt : ∀ pid, envDemo.fetch pid ≠ FetchR.transportError := by
    intro pid
    show (if pid == 999 then FetchR.httpError
      else if pid == 10 then FetchR.ok ⟨"Ann", "Lee"⟩ else FetchR.ok ⟨"John", "Doe"⟩) ≠
      FetchR.transportError
    split
    · exact fun hc => FetchR.noConfusion hc
    · split
      · exact fun hc => FetchR.noConfusion hc
      · exact fun hc => FetchR.noConfusion hc
  have h := c1_error_recovery envDemo ["versus? 10 999"] hnt
  exact ⟨h.1, h.2.1, h.2.2 ("999".data) ("10".data) ("999 10".data)
    (by decide) (by decide) (by decide) (by decide)⟩

/-- C4: a `versus?` query prints `0` when the remainder is not exactly two
whitespace-separated digit tokens, when either id's existence fetch reports
an HTTP failure, or when either resolved player has no team in the index;
only when every step succeeds does it print the head-to-head count of the
two resolved team ids. -/
theorem c4_versus_query (env : Env) (rest : List Char) :
    ((¬ ∃ a b, pySplitL rest = [a, b] ∧ pyIsDigitStr a = true ∧ pyIsDigitStr b = true) →
      versusCase env rest = .ok (["0"], [])) ∧
    (∀ a b, pySplitL rest = [a, b] → pyIsDigitStr a = true → pyIsDigitStr b = true →
      (env.fetch ((parseNatL a : Nat) : Int) = .httpError →
        versusCase env rest = .ok (["0"], [])) ∧
      (∀ p, env.fetch ((parseNatL a : Nat) : Int) = .ok p →
        env.fetch ((parseNatL b : Nat) : Int) = .httpError →
        versusCase env rest = .ok (["0"], [])) ∧
      (∀ p q, env.fetch ((parseNatL a : Nat) : Int) = .ok p →
        env.fetch ((parseNatL b : Nat) : Int) = .ok q →
        ((playerTeamFind env.teams ((parseNatL a : Nat) : Int) = none ∨
          playerTeamFind env.teams ((parseNatL b : Nat) : Int) = none) →
          versusCase env rest = .ok (["0"], [])) ∧
        (∀ t1 t2, playerTeamFind env.teams ((parseNatL a : Nat) : Int) = some t1 →
          playerTeamFind env.teams ((parseNatL b : Nat) : Int) = some t2 →
          versusCase env rest =
            .ok ([toString (countMatches env.matchList t1 t2)], [])))) := by
  constructor
  · intro hno
    rcases hsp : pySplitL rest with _ | ⟨a, _ | ⟨b, _ | ⟨c, t⟩⟩⟩
    · simp [versusCase, hsp]
    · simp [versusCase, hsp]
    · have hd : (pyIsDigitStr a && pyIsDigitStr b) = false := by
        cases hda : pyIsDigitStr a <;> cases hdb : pyIsDigitStr b <;> try rfl
        exact absurd ⟨a, b, hsp, hda, hdb⟩ hno
      simp [versusCase, hsp, hd]
    · simp [versusCase, hsp]
  · intro a b hsp hda hdb
    refine ⟨?_, ?_, ?_⟩
    · intro hfa
      simp [versusCase, hsp, hda, hdb, hfa]
    · intro p hfa hfb
      simp [versusCase, hsp, hda, hdb, hfa, hfb]
    · intro p q hfa hfb
      constructor
      · intro hnone
        rcases hnone with hn | hn
        · simp [versusCase, hsp, hda, hdb, hfa, hfb, hn]
        · cases hp1 : playerTeamFind env.teams ((parseNatL a : Nat) : Int) <;>
            simp [versusCase, hsp, hda, hdb, hfa, hfb, hp1, hn]
      · intro t1 t2 h1 h2
        simp [versusCase, hsp, hda, hdb, hfa, hfb, h1, h2]

/-- C4 witness: a resolvable pair prints the head-to-head count; a failing
existence fetch and a malformed remainder each print `0`. -/
theorem c4_versus_query_witness :
    versusCase envDemo ("10 11".data) = .ok (["2"], []) ∧
    versusCase envDemo ("10 999".data) = .ok (["0"], []) ∧
    versusCase envDemo ("10".data) = .ok (["0"], []) := by
  refine ⟨?_, ?_, ?_⟩
  · have h := ((c4_versus_query envDemo ("10 11".data)).2 ("10".data) ("11".data)
      (by decide) (by decide) (by decide)).2.2 ⟨"Ann", "Lee"⟩ ⟨"John", "Doe"⟩
      (by decide) (by decide)
    exact (h.2 1 2 (by decide) (by decide)).trans (by decide)
  · exact ((c4_versus_query envDemo ("10 999".data)).2 ("10".data) ("999".data)
      (by decide) (by decide) (by decide)).2.1 ⟨"Ann", "Lee"⟩ (by decide) (by decide)
  · refine (c4_versus_query envDemo ("10".data)).1 ?_
    intro h
    obtain ⟨a, b, hab, -, -⟩ := h
    rw [show pySplitL ("10".data) = [['1', '0']] from by decide] at hab
    simp at hab
